import Mathlib

/-!
Shallow embedding of the `gonzalo123/pglogical` repository
(`src/lib/models.py`, `src/lib/consumer.py`, `src/app.py`), and proofs
about the claims of its specification.

Conventions of the embedding:
* Python machine values are modelled by `PyValue`; Python standard-library
  parsing functions (`datetime.strptime`, `json.loads`, `uuid.UUID`,
  `int`, `float`, `Decimal`) are external to the repository and are
  abstracted into a `StdLib` record of `Option`-returning parsers whose
  `none` result models the function raising an exception.
* Callbacks are opaque values; an invocation is recorded in an output
  trace together with the argument list it was called with.
* Python exceptions escaping the consumer are modelled by `Except PyErr`.
* The binary pgoutput decoders (`lib.pypgoutput.decoders`, not part of the
  four source files) are abstracted: messages arrive already decoded, as
  the spec's "trusted upstream producing already-parsed messages".
-/

namespace PG

/-- Semantic types of `OID_MAP` in `src/lib/models.py` (the Python types
`int, str, Decimal, bool, float, date, datetime, dict, uuid.UUID`). -/
inductive PyType where
  | pInt | pStr | pDecimal | pBool | pFloat | pDate | pDatetime | pDict | pUuid
  deriving DecidableEq, Repr

/-- `OID_MAP` from `src/lib/models.py` lines 9-22; `none` models an OID
absent from the dict (so `OID_MAP.get(oid, str)` returns the default `str`). -/
def OID_MAP : Nat → Option PyType
  | 23 => some .pInt
  | 25 => some .pStr
  | 1043 => some .pStr
  | 1700 => some .pDecimal
  | 16 => some .pBool
  | 700 => some .pFloat
  | 701 => some .pFloat
  | 1082 => some .pDate
  | 1114 => some .pDatetime
  | 1184 => some .pDatetime
  | 114 => some .pDict
  | 2950 => some .pUuid
  | _ => none

/-- A Python value as produced by `convert_value`.  Values obtained from a
successful standard-library parse carry an opaque representation token
(the parsed object); `vNull` is Python `None`. -/
inductive PyValue where
  | vNull
  | vStr (s : String)
  | vBool (b : Bool)
  | vInt (r : String)
  | vFloat (r : String)
  | vDecimal (r : String)
  | vDate (r : String)
  | vDatetime (r : String)
  | vJson (r : String)
  | vUuid (r : String)
  deriving DecidableEq, Repr

/-- Python standard-library parsers used by `convert_value`
(`src/lib/consumer.py` lines 21-31).  These functions are external to the
repository; each is abstracted as a partial function whose `none` result
models the call raising an exception (caught by `convert_value`'s
`except`), and whose `some r` result carries the parsed object opaquely. -/
structure StdLib where
  strptime_datetime : String → Option String
  strptime_date : String → Option String
  json_loads : String → Option String
  uuid_parse : String → Option String
  parse_int : String → Option String
  parse_float : String → Option String
  parse_decimal : String → Option String

/-- The parser of `lib` that `convert_value` would call for a given
semantic type; `none` for the two infallible branches (`bool` is a mere
comparison, `str(value)` on a `str` is the identity). -/
def libParser (lib : StdLib) : PyType → Option (String → Option String)
  | .pDatetime => some lib.strptime_datetime
  | .pDate => some lib.strptime_date
  | .pDict => some lib.json_loads
  | .pUuid => some lib.uuid_parse
  | .pInt => some lib.parse_int
  | .pFloat => some lib.parse_float
  | .pDecimal => some lib.parse_decimal
  | .pBool => none
  | .pStr => none

/-- `convert_value(oid, value)` from `src/lib/consumer.py` lines 14-34.
`value is None` yields `None`; `python_type = OID_MAP.get(oid, str)`;
inside `try`, the branch for the type runs, and any exception is caught
and the raw `value` returned unchanged.  The `str` branch is
`str(value)`, the identity on the raw text; the `bool` branch is
`value == 't'`, which cannot raise. -/
def convert_value (lib : StdLib) (oid : Nat) (value : Option String) : PyValue :=
  match value with
  | none => .vNull
  | some v =>
    match OID_MAP oid with
    | some .pBool => .vBool (v == "t")
    | some .pDatetime =>
      match lib.strptime_datetime v with
      | some r => .vDatetime r
      | none => .vStr v
    | some .pDate =>
      match lib.strptime_date v with
      | some r => .vDate r
      | none => .vStr v
    | some .pDict =>
      match lib.json_loads v with
      | some r => .vJson r
      | none => .vStr v
    | some .pUuid =>
      match lib.uuid_parse v with
      | some r => .vUuid r
      | none => .vStr v
    | some .pInt =>
      match lib.parse_int v with
      | some r => .vInt r
      | none => .vStr v
    | some .pFloat =>
      match lib.parse_float v with
      | some r => .vFloat r
      | none => .vStr v
    | some .pDecimal =>
      match lib.parse_decimal v with
      | some r => .vDecimal r
      | none => .vStr v
    | some .pStr => .vStr v
    | none => .vStr v

/-- A concrete standard library in which every parser fails; used to
instantiate universally quantified theorems at a concrete point. -/
def failLib : StdLib :=
  ⟨fun _ => none, fun _ => none, fun _ => none, fun _ => none,
   fun _ => none, fun _ => none, fun _ => none⟩

/-- A concrete standard library in which every parser succeeds, returning
the raw text as the opaque parsed representation. -/
def okLib : StdLib :=
  ⟨fun s => some s, fun s => some s, fun s => some s, fun s => some s,
   fun s => some s, fun s => some s, fun s => some s⟩

/-- `Types` enum from `src/lib/models.py` lines 24-28. -/
inductive Types where
  | INSERT | UPDATE | DELETE | TRUNCATE
  deriving DecidableEq, Repr

/-- The members of `Types` in definition order (Python `for db_type in Types`). -/
def Types.all : List Types := [.INSERT, .UPDATE, .DELETE, .TRUNCATE]

/-- `Types(message_type)`: the enum constructor on a one-character tag.
`none` models the `ValueError` Python raises for a tag that is not a
member value. -/
def Types.ofTag : String → Option Types
  | "I" => some .INSERT
  | "U" => some .UPDATE
  | "D" => some .DELETE
  | "T" => some .TRUNCATE
  | _ => none

/-- A column of a relation descriptor (`rel.columns` elements as used in
`get_fields`: `c.name`, `c.type_id`, `c.part_of_pkey`). -/
structure Column where
  name : String
  type_id : Nat
  part_of_pkey : Nat
  deriving DecidableEq, Repr

/-- A decoded `Relation` message (`decoders.Relation`): the attributes the
consumer reads are `namespace` (here `nspace`, since `namespace` is a
Lean keyword), `relation_name` and `columns`; `relation_id` is carried by
the wire message. -/
structure RelationDesc where
  relation_id : Nat
  nspace : String
  relation_name : String
  columns : List Column
  deriving DecidableEq, Repr

/-- `Transaction` model from `src/lib/models.py` lines 30-33. -/
structure Transaction where
  tx_id : Nat
  begin_lsn : Nat
  commit_ts : Int
  deriving DecidableEq, Repr

/-- `Field` model from `src/lib/models.py` lines 35-38. -/
structure Field where
  name : String
  value : PyValue
  pkey : Bool
  deriving DecidableEq, Repr

/-- `Event` model from `src/lib/models.py` lines 40-45.  Note the model
has no commit-timestamp attribute. -/
structure Event where
  type : Types
  tx_id : Nat
  schema_name : String
  table_name : String
  values : List Field
  deriving DecidableEq, Repr

/-- `DomainEvent` model from `src/lib/models.py` lines 47-51; the callback
is an opaque handle, identified by a number. -/
structure DomainEvent where
  type : Types
  schema_name : String
  table_name : String
  callback : Nat
  deriving DecidableEq, Repr

/-- The decoded row payload of an `Insert`/`Update`/`Delete`/`Truncate`
message: the relation OID the row refers to on the wire, and the column
data of the old and new tuples (`col_data`, `none` for SQL null).  The
consumer never reads `relation_id`. -/
structure RowData where
  relation_id : Nat
  old_tuple : List (Option String)
  new_tuple : List (Option String)
  deriving DecidableEq, Repr

/-- `get_fields(data, rel, tuple_data)` from `src/lib/consumer.py` lines
66-75: one `Field` per column of `rel`, converting
`tuple_data.column_data[i].col_data` positionally (the zip agrees with the
source's index access whenever the tuple has one entry per column, as the
protocol guarantees). -/
def get_fields (lib : StdLib) (rel : RelationDesc) (tuple_data : List (Option String)) :
    List Field :=
  (rel.columns.zip tuple_data).map fun cd =>
    { name := cd.1.name
      value := convert_value lib cd.1.type_id cd.2
      pkey := cd.1.part_of_pkey == 1 }

/-- `get_event(message_type, rel, tx, payload)` from `src/lib/consumer.py`
lines 37-63, after the tag has been coerced by `Types` (the caller already
did so): DELETE decodes the old tuple, TRUNCATE has no fields, INSERT and
UPDATE decode the new tuple; the decoded data object is always truthy for
these four tags, so an event is always built (`Event | None` kept as
`Option` to mirror the signature and the caller's `if event:`). -/
def get_event (lib : StdLib) (t : Types) (rel : RelationDesc) (tx : Transaction)
    (row : RowData) : Option Event :=
  let fields : List Field :=
    match t with
    | .DELETE => get_fields lib rel row.old_tuple
    | .TRUNCATE => []
    | _ => get_fields lib rel row.new_tuple
  some { type := t
         tx_id := tx.tx_id
         schema_name := rel.nspace
         table_name := rel.relation_name
         values := fields }

/-- Python exceptions the consumer can let escape: `ValueError` from
`Types(message_type)` on an unknown tag, `AttributeError` from an
attribute access on `None` (`self.rel` or `self.tx` not yet set). -/
inductive PyErr where
  | valueError
  | attributeError
  deriving DecidableEq, Repr

/-- The mutable state of a `Consumer` instance (`src/lib/consumer.py`
lines 78-85): the registry `domain_events`, the transaction buffer
`events_to_notify` of (callback, event) pairs, and the `tx` and `rel`
slots, both `None` at construction. -/
structure ConsumerState where
  domain_events : List DomainEvent
  events_to_notify : List (Nat × Event)
  tx : Option Transaction
  rel : Option RelationDesc
  deriving DecidableEq, Repr

/-- A freshly constructed `Consumer`: empty registry, empty buffer,
`tx = None`, `rel = None`. -/
def Consumer.init : ConsumerState :=
  { domain_events := [], events_to_notify := [], tx := none, rel := none }

/-- `Consumer.on(db_type, table, callback)` from `src/lib/consumer.py`
lines 99-107, with `table` already split at the dot into schema and table
patterns: appends one `DomainEvent` to the registry. -/
def Consumer.on (st : ConsumerState) (db_type : Types) (schema_name table_name : String)
    (callback : Nat) : ConsumerState :=
  { st with domain_events := st.domain_events ++
      [{ type := db_type, schema_name := schema_name,
         table_name := table_name, callback := callback }] }

/-- `Consumer.on_all(table, callback)` from `src/lib/consumer.py` lines
109-118: registers the callback for every member of `Types`, in enum
definition order. -/
def Consumer.on_all (st : ConsumerState) (schema_name table_name : String)
    (callback : Nat) : ConsumerState :=
  Types.all.foldl (fun s t => Consumer.on s t schema_name table_name callback) st

/-- Argument of a Python call, as recorded in the invocation trace:
`emit_events` calls `callback(ts, event)`. -/
inductive CallArg where
  | argTs (ts : Int)
  | argEvent (e : Event)
  deriving DecidableEq, Repr

/-- One recorded callback invocation: the callback handle and the
positional argument list it was called with. -/
structure Invocation where
  cb : Nat
  args : List CallArg
  deriving DecidableEq, Repr

/-- Observable output of one `consume` step: a callback invocation or a
`send_feedback(flush_lsn=...)` position acknowledgment. -/
inductive OutEvent where
  | invoke (inv : Invocation)
  | ack (lsn : Nat)
  deriving DecidableEq, Repr

/-- Recognizer for acknowledgment outputs. -/
def OutEvent.isAck : OutEvent → Bool
  | .ack _ => true
  | .invoke _ => false

/-- Recognizer for invocation outputs. -/
def OutEvent.isInvoke : OutEvent → Bool
  | .invoke _ => true
  | .ack _ => false

/-- The condition of `append_event_if_registered`
(`src/lib/consumer.py` lines 123-125), with Python's short-circuit
evaluation: `self.rel.namespace` / `self.rel.relation_name` are only
touched when the type matched and the corresponding pattern is not the
wildcard, and raise `AttributeError` when `self.rel` is `None`. -/
def matchCheck (rel? : Option RelationDesc) (de : DomainEvent) (t : Types) :
    Except PyErr Bool :=
  if de.type ≠ t then Except.ok false
  else
    Except.bind
      (if de.schema_name = "*" then Except.ok true
       else match rel? with
         | none => Except.error PyErr.attributeError
         | some r => Except.ok (r.nspace = de.schema_name))
      fun sOk =>
        if !sOk then Except.ok false
        else if de.table_name = "*" then Except.ok true
        else match rel? with
          | none => Except.error PyErr.attributeError
          | some r => Except.ok (r.relation_name = de.table_name)

/-- The loop of `append_event_if_registered` over the registry, folded
over the buffer: per registration, `Types(message_type)` (raising
`ValueError` on an unknown tag), the match condition, and on a match the
call to `get_event(message_type, self.rel, self.tx, payload)`, which
dereferences `self.rel` (in `get_fields` or the `Event` keywords) and
`self.tx` (`tx.tx_id`) and so raises `AttributeError` when either is
still `None`. -/
def appendLoop (lib : StdLib) (rel? : Option RelationDesc) (tx? : Option Transaction)
    (tag : String) (row : RowData) :
    List DomainEvent → List (Nat × Event) → Except PyErr (List (Nat × Event))
  | [], acc => .ok acc
  | de :: rest, acc =>
    match Types.ofTag tag with
    | none => .error .valueError
    | some t =>
      (matchCheck rel? de t).bind fun m =>
        if m then
          match rel?, tx? with
          | some r, some tx =>
            match get_event lib t r tx row with
            | some e => appendLoop lib rel? tx? tag row rest (acc ++ [(de.callback, e)])
            | none => appendLoop lib rel? tx? tag row rest acc
          | _, _ => .error .attributeError
        else appendLoop lib rel? tx? tag row rest acc

/-- `Consumer.append_event_if_registered(message_type, payload)` from
`src/lib/consumer.py` lines 120-128: extends `events_to_notify` by the
matching (callback, event) pairs, in registration order. -/
def append_event_if_registered (lib : StdLib) (st : ConsumerState) (tag : String)
    (row : RowData) : Except PyErr ConsumerState :=
  (appendLoop lib st.rel st.tx tag row st.domain_events st.events_to_notify).map
    fun buf => { st with events_to_notify := buf }

/-- `Consumer.emit_events(commit_msg)` from `src/lib/consumer.py` lines
130-134: for each buffered pair, sets `event.tx_id = self.tx.tx_id`
(raising `AttributeError` if `self.tx` is `None`) and calls
`callback(ts, event)` — two positional arguments, the commit timestamp
and the event. -/
def emit_events (st : ConsumerState) (commit_ts : Int) : Except PyErr (List Invocation) :=
  match st.events_to_notify with
  | [] => .ok []
  | _ =>
    match st.tx with
    | none => .error .attributeError
    | some tx => .ok (st.events_to_notify.map fun ce =>
        { cb := ce.1
          args := [.argTs commit_ts, .argEvent { ce.2 with tx_id := tx.tx_id }] })

/-- A decoded replication message, dispatched on the tag byte
`msg.payload[:1]`: `R` (Relation), `B` (Begin), `C` (Commit), and the
`else` branch covering the row tags `I`/`U`/`D`/`T` as well as any other
tag, all fed to `append_event_if_registered`. -/
inductive Msg where
  | R (rel : RelationDesc)
  | B (tx_xid : Nat) (lsn : Nat) (commit_ts : Int)
  | C (commit_ts : Int)
  | row (tag : String) (data : RowData)
  deriving DecidableEq, Repr

/-- A message as handed to the consumer closure: the decoded payload plus
`msg.data_start`, the stream position marker acknowledged afterwards. -/
structure WalMessage where
  data_start : Nat
  payload : Msg
  deriving DecidableEq, Repr

/-- The closure returned by `Consumer.get_consumer`
(`src/lib/consumer.py` lines 136-158), one step on one message:
* `R`: `self.rel = decoders.Relation(payload)`;
* `B`: `self.events_to_notify = []`, `self.tx = Transaction(...)`;
* `C`: `self.emit_events(commit_msg)`;
* otherwise: `self.append_event_if_registered(message_type, payload)`;
then, unconditionally on normal completion,
`msg.cursor.send_feedback(flush_lsn=msg.data_start)`.
The result is the new state and the ordered output trace of the step; a
Python exception escapes as `.error`, in which case no feedback is sent. -/
def consume (lib : StdLib) (st : ConsumerState) (m : WalMessage) :
    Except PyErr (ConsumerState × List OutEvent) :=
  match m.payload with
  | .R rel => .ok ({ st with rel := some rel }, [.ack m.data_start])
  | .B tx_xid lsn commit_ts =>
    .ok ({ st with events_to_notify := [],
                   tx := some (Transaction.mk tx_xid lsn commit_ts) },
         [.ack m.data_start])
  | .C commit_ts =>
    (emit_events st commit_ts).map fun invs =>
      (st, invs.map .invoke ++ [.ack m.data_start])
  | .row tag data =>
    (append_event_if_registered lib st tag data).map fun st' =>
      (st', [.ack m.data_start])

/-- `cur.consume_stream(self.get_consumer())`: the consumer applied to a
finite prefix of the replication stream, accumulating the output trace;
an escaping exception stops the loop. -/
def runConsumer (lib : StdLib) (st : ConsumerState) :
    List WalMessage → Except PyErr (ConsumerState × List OutEvent)
  | [] => .ok (st, [])
  | m :: ms =>
    (consume lib st m).bind fun so =>
      (runConsumer lib so.1 ms).map fun so' => (so'.1, so.2 ++ so'.2)

/-- The matching predicate as the specification words it: operation type
exactly equal AND (schema pattern is the wildcard OR equals the event
relation's schema) AND (table pattern is the wildcard OR equals the event
relation's table). -/
def specMatches (de : DomainEvent) (t : Types) (schema table : String) : Bool :=
  de.type == t && (de.schema_name == "*" || de.schema_name == schema) &&
    (de.table_name == "*" || de.table_name == table)

/-- The event `get_event` builds for one row message (always built: the
decoded data object is truthy for the four row tags). -/
def eventOf (lib : StdLib) (t : Types) (r : RelationDesc) (tx : Transaction)
    (row : RowData) : Event :=
  { type := t
    tx_id := tx.tx_id
    schema_name := r.nspace
    table_name := r.relation_name
    values :=
      match t with
      | .DELETE => get_fields lib r row.old_tuple
      | .TRUNCATE => []
      | _ => get_fields lib r row.new_tuple }

/-- The (callback, event) pairs one row message with tag `tag` contributes
to the transaction buffer, given the registry `des`, the currently held
relation descriptor `r` and the open transaction `tx`. -/
def rowPairs (lib : StdLib) (des : List DomainEvent) (r : RelationDesc) (tx : Transaction)
    (tag : String) (row : RowData) : List (Nat × Event) :=
  match Types.ofTag tag with
  | none => []
  | some t =>
    des.filterMap fun de =>
      if specMatches de t r.nspace r.relation_name then
        (get_event lib t r tx row).map fun e => (de.callback, e)
      else none

/-- `rowPairs` lifted to a whole message: only row-tagged messages
contribute. -/
def msgRowPairs (lib : StdLib) (des : List DomainEvent) (r : RelationDesc)
    (tx : Transaction) : WalMessage → List (Nat × Event)
  | ⟨_, .row tag row⟩ => rowPairs lib des r tx tag row
  | _ => []

theorem get_event_eq (lib : StdLib) (t : Types) (r : RelationDesc) (tx : Transaction)
    (row : RowData) : get_event lib t r tx row = some (eventOf lib t r tx row) := by
  cases t <;> rfl

theorem str_beq_decide (a b : String) : (a == b) = decide (b = a) := by
  by_cases h : a = b
  · subst h
    simp
  · have h' : ¬ b = a := fun hh => h hh.symm
    simp [h, h']

theorem matchCheck_some (r : RelationDesc) (de : DomainEvent) (t : Types) :
    matchCheck (some r) de t = .ok (specMatches de t r.nspace r.relation_name) := by
  by_cases h1 : de.type = t
  · by_cases h2 : de.schema_name = "*"
    · by_cases h3 : de.table_name = "*"
      · simp [matchCheck, specMatches, h1, h2, h3, Except.bind]
      · have h3' : ¬ ("*" : String) = de.table_name := fun h => h3 h.symm
        simp [matchCheck, specMatches, h1, h2, h3, h3', str_beq_decide, Except.bind]
    · have h2' : ¬ ("*" : String) = de.schema_name := fun h => h2 h.symm
      by_cases h5 : r.nspace = de.schema_name
      · by_cases h3 : de.table_name = "*"
        · simp [matchCheck, specMatches, h1, h2, h2', h3, h5, str_beq_decide,
            Except.bind]
        · have h3' : ¬ ("*" : String) = de.table_name := fun h => h3 h.symm
          simp [matchCheck, specMatches, h1, h2, h2', h3, h3', h5, str_beq_decide,
            Except.bind]
      · simp [matchCheck, specMatches, h1, h2, h2', h5, str_beq_decide, Except.bind]
  · simp [matchCheck, specMatches, h1]

theorem filterMap_if_eq_filter_map {α β : Type} (p : α → Bool) (f : α → β) :
    ∀ l : List α,
      (l.filterMap fun a => if p a then some (f a) else none) = (l.filter p).map f := by
  intro l
  induction l with
  | nil => rfl
  | cons a rest ih =>
    by_cases h : p a = true <;>
      simp [List.filterMap_cons, List.filter_cons, h, ih]

theorem rowPairs_eq_filter (lib : StdLib) (des : List DomainEvent) (r : RelationDesc)
    (tx : Transaction) (tag : String) (t : Types) (row : RowData)
    (htag : Types.ofTag tag = some t) :
    rowPairs lib des r tx tag row =
      (des.filter fun de => specMatches de t r.nspace r.relation_name).map
        fun de => (de.callback, eventOf lib t r tx row) := by
  unfold rowPairs
  simp only [htag, get_event_eq, Option.map_some']
  exact filterMap_if_eq_filter_map _ _ des

theorem appendLoop_ok (lib : StdLib) (r : RelationDesc) (tx : Transaction)
    (tag : String) (t : Types) (row : RowData) (htag : Types.ofTag tag = some t)
    (des : List DomainEvent) :
    ∀ acc, appendLoop lib (some r) (some tx) tag row des acc =
      .ok (acc ++ rowPairs lib des r tx tag row) := by
  induction des with
  | nil =>
    intro acc
    simp [appendLoop, rowPairs, htag]
  | cons d rest ih =>
    intro acc
    simp only [appendLoop, htag, matchCheck_some, Except.bind, get_event_eq]
    rw [rowPairs_eq_filter lib (d :: rest) r tx tag t row htag]
    by_cases h : specMatches d t r.nspace r.relation_name = true
    · simp only [h, if_true, ih, List.filter_cons, List.map_cons]
      rw [rowPairs_eq_filter lib rest r tx tag t row htag]
      simp [List.append_assoc]
    · simp only [h, if_false, ih, List.filter_cons, Bool.false_eq_true]
      rw [rowPairs_eq_filter lib rest r tx tag t row htag]

theorem append_ok (lib : StdLib) (st : ConsumerState) (tag : String) (t : Types)
    (row : RowData) (r : RelationDesc) (tx : Transaction)
    (hrel : st.rel = some r) (htx : st.tx = some tx) (htag : Types.ofTag tag = some t) :
    append_event_if_registered lib st tag row =
      .ok { st with events_to_notify :=
        st.events_to_notify ++ rowPairs lib st.domain_events r tx tag row } := by
  unfold append_event_if_registered
  rw [hrel, htx, appendLoop_ok lib r tx tag t row htag]
  rfl

theorem emit_ok (st : ConsumerState) (cts : Int) (tx : Transaction)
    (htx : st.tx = some tx) :
    emit_events st cts = .ok (st.events_to_notify.map fun ce =>
      { cb := ce.1
        args := [.argTs cts, .argEvent { ce.2 with tx_id := tx.tx_id }] }) := by
  unfold emit_events
  rcases hb : st.events_to_notify with _ | ⟨a, l⟩
  · rfl
  · rw [htx]

theorem consume_commit (lib : StdLib) (st : ConsumerState) (l : Nat) (cts : Int)
    (tx : Transaction) (htx : st.tx = some tx) :
    consume lib st ⟨l, .C cts⟩ = .ok (st,
      ((st.events_to_notify.map fun ce =>
        Invocation.mk ce.1 [.argTs cts, .argEvent { ce.2 with tx_id := tx.tx_id }]).map
          OutEvent.invoke) ++ [.ack l]) := by
  show (emit_events st cts).map _ = _
  rw [emit_ok st cts tx htx]
  rfl

theorem run_rows (lib : StdLib) (r : RelationDesc) (tx : Transaction) :
    ∀ (rows : List WalMessage) (st : ConsumerState), st.rel = some r → st.tx = some tx →
    (∀ m ∈ rows, ∃ tag row rt, m.payload = Msg.row tag row ∧ Types.ofTag tag = some rt) →
    runConsumer lib st rows =
      .ok ({ st with events_to_notify := st.events_to_notify ++
               rows.flatMap (msgRowPairs lib st.domain_events r tx) },
           rows.map fun m => .ack m.data_start) := by
  intro rows
  induction rows with
  | nil =>
    intro st h1 h2 h3
    simp [runConsumer]
  | cons m rest ih =>
    intro st h1 h2 h3
    obtain ⟨tag, row, rt, hm, htag⟩ := h3 m (List.mem_cons_self m rest)
    have hc : consume lib st m =
        .ok ({ st with events_to_notify :=
                 st.events_to_notify ++ rowPairs lib st.domain_events r tx tag row },
             [.ack m.data_start]) := by
      obtain ⟨ds, pl⟩ := m
      simp only at hm
      subst hm
      show (append_event_if_registered lib st tag row).map _ = _
      rw [append_ok lib st tag rt row r tx h1 h2 htag]
      rfl
    rw [runConsumer, hc]
    have ih' := ih { st with events_to_notify :=
        st.events_to_notify ++ rowPairs lib st.domain_events r tx tag row }
      h1 h2 (fun m' hm' => h3 m' (List.mem_cons_of_mem m hm'))
    simp only [Except.bind, ih', Except.map]
    have hflat : (m :: rest).flatMap (msgRowPairs lib st.domain_events r tx) =
        rowPairs lib st.domain_events r tx tag row ++
          rest.flatMap (msgRowPairs lib st.domain_events r tx) := by
      obtain ⟨ds, pl⟩ := m
      simp only at hm
      subst hm
      rfl
    rw [hflat]
    simp [List.append_assoc]

theorem filter_isInvoke_acks (ms : List WalMessage) :
    (ms.map fun m => OutEvent.ack m.data_start).filter OutEvent.isInvoke = [] := by
  induction ms with
  | nil => rfl
  | cons m rest ih => simp [OutEvent.isInvoke, ih]

theorem runConsumer_append (lib : StdLib) (xs ys : List WalMessage) :
    ∀ st, runConsumer lib st (xs ++ ys) = (runConsumer lib st xs).bind fun so =>
      (runConsumer lib so.1 ys).map fun so2 => (so2.1, so.2 ++ so2.2) := by
  induction xs with
  | nil =>
    intro st
    cases hr : runConsumer lib st ys <;>
      simp [runConsumer, Except.bind, Except.map, hr]
  | cons m ms ih =>
    intro st
    show runConsumer lib st (m :: (ms ++ ys)) = _
    rw [runConsumer, runConsumer]
    cases hc : consume lib st m with
    | error e => simp [Except.bind]
    | ok so =>
      simp only [Except.bind, ih so.1]
      cases hr : runConsumer lib so.1 ms with
      | error e => simp [Except.bind, Except.map, hr]
      | ok so2 =>
        cases hr2 : runConsumer lib so2.1 ys with
        | error e => simp [Except.bind, Except.map, hr, hr2]
        | ok so3 => simp [Except.bind, Except.map, hr, hr2, List.append_assoc]

theorem filter_isAck_invokes (l : List Invocation) :
    (l.map OutEvent.invoke).filter OutEvent.isAck = [] := by
  induction l with
  | nil => rfl
  | cons a rest ih => simp [OutEvent.isAck, ih]

theorem getLast_append_single {α : Type} (xs : List α) (a : α) :
    (xs ++ [a]).getLast? = some a := by
  rw [List.getLast?_append_of_ne_nil xs (by simp)]
  rfl

/-- A concrete relation descriptor used to instantiate theorems. -/
def relX : RelationDesc := ⟨1, "s1", "t1", [⟨"c", 23, 1⟩]⟩

/-- A second concrete relation descriptor, for a distinct relation id. -/
def relY : RelationDesc := ⟨2, "s2", "t2", [⟨"d", 25, 0⟩]⟩

/-- C5: for every type identifier and raw input, `convert_value` returns a
value to its caller (it is a total function of the embedding — every
standard-library exception is caught); a null raw input yields null
regardless of the declared type; when the declared type's parser fails on
the raw text, the original raw text is returned unchanged; and a type
identifier absent from `OID_MAP` is treated as text, the raw text
returned as-is. -/
theorem C5_convert_total_null_and_fallback (lib : StdLib) (oid : Nat) (s : String) :
    convert_value lib oid none = .vNull ∧
    (OID_MAP oid = none → convert_value lib oid (some s) = .vStr s) ∧
    (∀ t f, OID_MAP oid = some t → libParser lib t = some f → f s = none →
      convert_value lib oid (some s) = .vStr s) := by
  refine ⟨rfl, ?_, ?_⟩
  · intro h
    simp [convert_value, h]
  · intro t f h1 h2 h3
    cases t
    case pBool => exact Option.noConfusion h2
    case pStr => exact Option.noConfusion h2
    all_goals
      simp only [libParser, Option.some.injEq] at h2
      subst h2
      simp [convert_value, h1, h3]

/-- Witness for C5: an unknown type identifier (999) passes the raw text
through, and a timestamp identifier (1114) whose parse fails falls back
to the raw text. -/
theorem C5_convert_total_null_and_fallback_witness :
    convert_value failLib 999 (some "x") = .vStr "x" ∧
    convert_value failLib 1114 (some "x") = .vStr "x" :=
  ⟨(C5_convert_total_null_and_fallback failLib 999 "x").2.1 rfl,
   (C5_convert_total_null_and_fallback failLib 1114 "x").2.2 .pDatetime
     failLib.strptime_datetime rfl rfl rfl⟩

/-- C10: for every non-null raw text, `convert_value` on the boolean OID
16 returns the boolean equality of the text with the single truth literal
"t" — so "t" yields true, "f" yields false, any other text yields false,
and the raw-text fallback is never taken (the comparison cannot fail). -/
theorem C10_boolean_conversion (lib : StdLib) (s : String) :
    convert_value lib 16 (some "t") = .vBool true ∧
    convert_value lib 16 (some "f") = .vBool false ∧
    convert_value lib 16 (some s) = .vBool (s == "t") ∧
    (s ≠ "t" → convert_value lib 16 (some s) = .vBool false) := by
  refine ⟨rfl, rfl, rfl, fun h => ?_⟩
  have hb : (s == "t") = false := beq_eq_false_iff_ne.mpr h
  show PyValue.vBool (s == "t") = PyValue.vBool false
  rw [hb]

/-- Witness for C10: a boolean column text other than "t" or "f"
converts to false. -/
theorem C10_boolean_conversion_witness :
    convert_value failLib 16 (some "yes") = .vBool false :=
  (C10_boolean_conversion failLib "yes").2.2.2 (by decide)

/-- C9: whenever `consume` processes one message of any tag and completes
normally, its output trace contains exactly one acknowledgment, it
carries that message's stream position marker (`msg.data_start`), and it
is the last output of the step (after the message is fully processed). -/
theorem C9_exactly_one_ack (lib : StdLib) (st : ConsumerState) (m : WalMessage)
    (st' : ConsumerState) (outs : List OutEvent)
    (h : consume lib st m = .ok (st', outs)) :
    outs.filter OutEvent.isAck = [.ack m.data_start] ∧
    outs.getLast? = some (.ack m.data_start) := by
  obtain ⟨ds, pl⟩ := m
  cases pl with
  | R rel =>
    simp only [consume, Except.ok.injEq, Prod.mk.injEq] at h
    rw [← h.2]
    exact ⟨rfl, rfl⟩
  | B xid lsn cts =>
    simp only [consume, Except.ok.injEq, Prod.mk.injEq] at h
    rw [← h.2]
    exact ⟨rfl, rfl⟩
  | C cts =>
    cases he : emit_events st cts with
    | error e => simp [consume, he, Except.map] at h
    | ok invs =>
      simp only [consume, he, Except.map, Except.ok.injEq, Prod.mk.injEq] at h
      rw [← h.2]
      constructor
      · rw [List.filter_append, filter_isAck_invokes]
        rfl
      · exact getLast_append_single _ _
  | row tag data =>
    cases ha : append_event_if_registered lib st tag data with
    | error e => simp [consume, ha, Except.map] at h
    | ok st2 =>
      simp only [consume, ha, Except.map, Except.ok.injEq, Prod.mk.injEq] at h
      rw [← h.2]
      exact ⟨rfl, rfl⟩

/-- Witness for C9: processing a concrete Relation message acknowledges
exactly position 5, last. -/
theorem C9_exactly_one_ack_witness :
    ([OutEvent.ack 5].filter OutEvent.isAck = [.ack 5]) ∧
    ([OutEvent.ack 5].getLast? = some (.ack 5)) :=
  C9_exactly_one_ack failLib Consumer.init ⟨5, .R relX⟩
    { Consumer.init with rel := some relX } [.ack 5] rfl

/-- C8: a Begin message discards whatever the previous transaction left
in the buffer — the run of the stream from the Begin on is entirely
independent of the buffered (callback, event) pairs, so none of them is
ever delivered; and the Begin step itself empties the buffer and installs
the new transaction context while producing no invocation. -/
theorem C8_begin_discards_buffer (lib : StdLib) (st : ConsumerState)
    (buf1 buf2 : List (Nat × Event)) (xid lsn : Nat) (cts : Int) (l : Nat)
    (rest : List WalMessage) :
    runConsumer lib { st with events_to_notify := buf1 } (⟨l, .B xid lsn cts⟩ :: rest) =
      runConsumer lib { st with events_to_notify := buf2 }
        (⟨l, .B xid lsn cts⟩ :: rest) ∧
    consume lib st ⟨l, .B xid lsn cts⟩ =
      .ok ({ st with events_to_notify := ([] : List (Nat × Event)), tx := some (Transaction.mk xid lsn cts) }, [.ack l]) := by
  exact ⟨rfl, rfl⟩

/-- The event built for the single row message of the concrete
Begin/Insert/Commit run used against C2: relation `relX`, transaction 7,
the integer parse of "9" failing under `failLib` and falling back to the
raw text. -/
def c2Event : Event := ⟨.INSERT, 7, "s1", "t1", [⟨"c", .vStr "9", true⟩]⟩

/-- Start state: one subscription (INSERT on s1.t1), descriptor `relX`
already delivered. -/
def c2Start : ConsumerState := ⟨[⟨.INSERT, "s1", "t1", 0⟩], [], none, some relX⟩

/-- A complete Begin → Insert → Commit exchange. -/
def c2Trace : List WalMessage :=
  [⟨1, .B 7 1 5⟩, ⟨2, .row "I" ⟨1, [], [some "9"]⟩⟩, ⟨3, .C 9⟩]

/-- The consumer state right after the Commit message of `c2Trace`. -/
def c2Final : ConsumerState :=
  ⟨[⟨.INSERT, "s1", "t1", 0⟩], [(0, c2Event)], some ⟨7, 1, 5⟩, some relX⟩

/-- C2 counterexample: immediately after the commit flush of a complete
Begin → Insert → Commit exchange, the transaction buffer still holds the
delivered (callback, event) pair and the transaction context is still
present — the `C` branch of `consume` clears neither, contradicting the
claim that the buffer is empty and the context discarded after each
commit flush. -/
theorem C2_cex_buffer_not_cleared_on_commit :
    runConsumer failLib c2Start c2Trace =
      .ok (c2Final, [.ack 1, .ack 2, .invoke ⟨0, [.argTs 9, .argEvent c2Event]⟩, .ack 3]) ∧
    c2Final.events_to_notify ≠ [] ∧ c2Final.tx ≠ none := by
  refine ⟨rfl, by decide, by decide⟩

/-- C2 amended: the commit flush leaves the consumer state — buffer and
transaction context included — completely unchanged; the buffer is
instead cleared when the next Begin message is processed (which also
installs the new transaction context), and it is empty in the freshly
constructed consumer, so it is empty before the first Begin and at the
start of every transaction, but not immediately after a commit flush. -/
theorem C2_amended_commit_keeps_buffer (lib : StdLib) (st : ConsumerState) (cts : Int)
    (l l2 xid lsn : Nat) (bcts : Int) :
    (∀ st' outs, consume lib st ⟨l, .C cts⟩ = .ok (st', outs) → st' = st) ∧
    (∀ st2 outs2, consume lib st ⟨l2, .B xid lsn bcts⟩ = .ok (st2, outs2) →
      st2.events_to_notify = [] ∧ st2.tx = some (Transaction.mk xid lsn bcts)) ∧
    Consumer.init.events_to_notify = [] := by
  refine ⟨?_, ?_, rfl⟩
  · intro st' outs h
    simp only [consume] at h
    cases he : emit_events st cts with
    | error e =>
      rw [he] at h
      exact absurd h (by simp [Except.map])
    | ok invs =>
      rw [he] at h
      simp only [Except.map, Except.ok.injEq, Prod.mk.injEq] at h
      exact h.1.symm
  · intro st2 outs2 h
    simp only [consume, Except.ok.injEq, Prod.mk.injEq] at h
    rw [← h.1]
    exact ⟨rfl, rfl⟩

/-- The state after the Begin message of `c2Trace`. -/
def c2AfterB : ConsumerState := ⟨[⟨.INSERT, "s1", "t1", 0⟩], [], some ⟨7, 1, 5⟩, some relX⟩

/-- Witness for the amended C2: at the concrete commit of `c2Trace` the
state is returned unchanged, and the concrete Begin empties the buffer. -/
theorem C2_amended_commit_keeps_buffer_witness :
    c2Final = c2Final ∧
    c2AfterB.events_to_notify = [] ∧ c2AfterB.tx = some (Transaction.mk 7 1 5) :=
  ⟨(C2_amended_commit_keeps_buffer failLib c2Final 9 3 1 7 1 5).1 c2Final
      [.invoke ⟨0, [.argTs 9, .argEvent c2Event]⟩, .ack 3] rfl,
   (C2_amended_commit_keeps_buffer failLib c2Final 9 3 1 7 1 5).2.1 c2AfterB
      [.ack 1] rfl⟩

/-- The relation descriptor for `public.actors` with no columns, as in the
sample application. -/
def relP : RelationDesc := ⟨3, "public", "actors", []⟩

/-- The event delivered to the sample application's callback. -/
def c7Event : Event := ⟨.UPDATE, 7, "public", "actors", []⟩

/-- The consumer state after the full run of `C7`'s trace. -/
def c7Final : ConsumerState :=
  ⟨[⟨.UPDATE, "public", "*", 0⟩], [(0, c7Event)], some ⟨7, 1, 5⟩, some relP⟩

/-- C7 (code bug): with the sample application's registration
(`on(Types.UPDATE, 'public.*', callback)`), a full Begin → Relation →
Update → Commit exchange invokes the callback with TWO positional
arguments — the commit timestamp and the event — not with the single
Event the spec and `app.py`'s one-parameter `callback(event)` expect; the
commit timestamp is never assigned onto the event (the `Event` model has
no such attribute; only `tx_id` is re-assigned before the call), so the
repository's own callback would raise a `TypeError`. -/
theorem C7_callback_receives_two_arguments :
    runConsumer failLib (Consumer.on Consumer.init .UPDATE "public" "*" 0)
        [⟨1, .B 7 1 5⟩, ⟨2, .R relP⟩, ⟨3, .row "U" ⟨3, [], []⟩⟩, ⟨4, .C 9⟩] =
      .ok (c7Final,
        [.ack 1, .ack 2, .ack 3, .invoke ⟨0, [.argTs 9, .argEvent c7Event]⟩, .ack 4]) ∧
    (Invocation.mk 0 [.argTs 9, .argEvent c7Event]).args.length = 2 := by
  exact ⟨rfl, rfl⟩

/-- A state with a wildcard INSERT subscription, an open transaction, and
no relation descriptor delivered yet. -/
def c4State : ConsumerState := ⟨[⟨.INSERT, "*", "*", 0⟩], [], some ⟨7, 1, 5⟩, none⟩

/-- C4 counterexample: a row message processed while no relation
descriptor is held is not dropped with a defensive log — the dispatcher
raises (attribute access on the absent descriptor during event
construction) and the message is not even acknowledged. -/
theorem C4_cex_missing_descriptor_raises :
    consume failLib c4State ⟨5, .row "I" ⟨1, [], [some "9"]⟩⟩ =
      .error .attributeError := by
  rfl

/-- C4 amended: there is no defensive drop-and-log path. A row message
arriving while no relation descriptor is held is processed without error
only when no registered subscription forces the descriptor to be touched:
with an empty registry the message completes with the state unchanged and
one acknowledgment; as soon as the first registered subscription matches
it (same operation type, wildcard patterns), the dispatcher raises an
attribute error, no callback is buffered and no acknowledgment is sent.
The descriptor, when present, is never checked against the row's own
relation id. -/
theorem C4_amended_no_defensive_drop (lib : StdLib) (st : ConsumerState) (l : Nat)
    (tag : String) (row : RowData) (hrel : st.rel = none) :
    (st.domain_events = [] → consume lib st ⟨l, .row tag row⟩ = .ok (st, [.ack l])) ∧
    (∀ de rest, st.domain_events = de :: rest → Types.ofTag tag = some de.type →
      de.schema_name = "*" → de.table_name = "*" →
      consume lib st ⟨l, .row tag row⟩ = .error .attributeError) := by
  constructor
  · intro hd
    simp [consume, append_event_if_registered, hd, appendLoop, Except.map]
    rw [← hd]
  · intro de rest hd htag hs ht
    simp [consume, append_event_if_registered, appendLoop, matchCheck, hd, htag,
      hrel, hs, ht, Except.bind, Except.map]

/-- Witness for the amended C4: the empty-registry case completes with
one acknowledgment; the wildcard-subscription case raises. -/
theorem C4_amended_no_defensive_drop_witness :
    consume failLib Consumer.init ⟨2, .row "Z" ⟨1, [], []⟩⟩ =
      .ok (Consumer.init, [.ack 2]) ∧
    consume failLib c4State ⟨5, .row "I" ⟨1, [], [some "9"]⟩⟩ =
      .error .attributeError :=
  ⟨(C4_amended_no_defensive_drop failLib Consumer.init 2 "Z" ⟨1, [], []⟩ rfl).1 rfl,
   (C4_amended_no_defensive_drop failLib c4State 5 "I" ⟨1, [], [some "9"]⟩ rfl).2
      ⟨.INSERT, "*", "*", 0⟩ [] rfl rfl rfl rfl⟩

theorem appendLoop_relation_id_irrelevant (lib : StdLib) (rel? : Option RelationDesc)
    (tx? : Option Transaction) (tag : String) (old new : List (Option String))
    (id1 id2 : Nat) :
    ∀ (des : List DomainEvent) (acc : List (Nat × Event)),
      appendLoop lib rel? tx? tag (RowData.mk id1 old new) des acc =
        appendLoop lib rel? tx? tag (RowData.mk id2 old new) des acc := by
  intro des
  induction des with
  | nil => intro acc; rfl
  | cons d rest ih =>
    intro acc
    simp only [appendLoop]
    rcases htag : Types.ofTag tag with _ | t
    · rfl
    · rcases hm : matchCheck rel? d t with e | m
      · simp [hm, Except.bind]
      · cases m with
        | false => simpa [hm, Except.bind] using ih acc
        | true =>
          rcases rel? with _ | r
          · simp [hm, Except.bind]
          · rcases tx? with _ | tx
            · simp [hm, Except.bind]
            · have he : eventOf lib t r tx (RowData.mk id1 old new) =
                  eventOf lib t r tx (RowData.mk id2 old new) := by
                cases t <;> rfl
              simpa [hm, Except.bind, get_event_eq, he] using
                ih (acc ++ [(d.callback, eventOf lib t r tx (RowData.mk id2 old new))])

/-- Two subscriptions, one per relation of `relX`/`relY`. -/
def c3Start : ConsumerState :=
  ⟨[⟨.INSERT, "s1", "t1", 0⟩, ⟨.INSERT, "s2", "t2", 1⟩], [], none, none⟩

/-- Begin, then Relation messages for the two distinct relations 1 and 2,
then an Insert whose wire relation id is 1 (relX's). -/
def c3Trace : List WalMessage :=
  [⟨9, .B 7 1 5⟩, ⟨10, .R relX⟩, ⟨11, .R relY⟩, ⟨12, .row "I" ⟨1, [], [some "5"]⟩⟩]

/-- The event the dispatcher actually buffers for the relation-1 row:
decoded entirely with relY's descriptor (schema s2, table t2, column d). -/
def c3Event : Event := ⟨.INSERT, 7, "s2", "t2", [⟨"d", .vStr "5", false⟩]⟩

/-- The state after `c3Trace`. -/
def c3Final : ConsumerState :=
  ⟨[⟨.INSERT, "s1", "t1", 0⟩, ⟨.INSERT, "s2", "t2", 1⟩], [(1, c3Event)],
   some ⟨7, 1, 5⟩, some relY⟩

/-- C3 counterexample: the dispatcher has no per-id directory, only a
single most-recent-descriptor slot.  After Relation messages for the two
distinct relations 1 (`relX`, s1.t1) and 2 (`relY`, s2.t2), an Insert
whose wire relation id is 1 is matched and decoded with relY's schema,
table and columns: the s1.t1 subscription (callback 0) never fires —
though the claim requires the row be handled with its own relation's
descriptor — and the s2.t2 subscription (callback 1) receives an event
carrying relY's names, not relX's. -/
theorem C3_cex_single_descriptor_slot :
    runConsumer failLib c3Start c3Trace =
      .ok (c3Final, [.ack 9, .ack 10, .ack 11, .ack 12]) ∧
    c3Event.schema_name ≠ relX.nspace ∧
    c3Final.events_to_notify.map Prod.fst = [1] := by
  refine ⟨rfl, by decide, by decide⟩

/-- C3 amended: the dispatcher keeps exactly one relation descriptor, the
most recently received one; a Relation message replaces it
unconditionally (whatever the previous descriptor's id), and a row-change
message is matched and decoded against this single descriptor regardless
of the row's own relation id — the processing of a row message is
completely independent of the relation id it carries. -/
theorem C3_amended_single_slot (lib : StdLib) (st : ConsumerState) (rel : RelationDesc)
    (l : Nat) (tag : String) (old new : List (Option String)) (id1 id2 : Nat) :
    consume lib st ⟨l, .R rel⟩ = .ok ({ st with rel := some rel }, [.ack l]) ∧
    append_event_if_registered lib st tag (RowData.mk id1 old new) =
      append_event_if_registered lib st tag (RowData.mk id2 old new) := by
  refine ⟨rfl, ?_⟩
  unfold append_event_if_registered
  rw [appendLoop_relation_id_irrelevant lib st.rel st.tx tag old new id1 id2
      st.domain_events st.events_to_notify]

/-- A registry with two subscriptions matching an Insert on `relX` (a
wildcard one and a literal s1.t1 one) and one non-matching DELETE
subscription; descriptor `relX` held, transaction 7 open. -/
def c6State : ConsumerState :=
  ⟨[⟨.INSERT, "*", "*", 0⟩, ⟨.INSERT, "s1", "t1", 1⟩, ⟨.DELETE, "*", "*", 2⟩],
   [], some ⟨7, 1, 5⟩, some relX⟩

/-- C6: with a descriptor and an open transaction, processing one row
message extends the buffer by exactly the registrations satisfying the
spec's matching formula — operation type equal AND (schema pattern
wildcard OR equal to the relation's schema) AND (table pattern wildcard
OR equal to the relation's table) — one (callback, event) pair per
matching registration, in registration order, all carrying the same
event value. -/
theorem C6_matching_formula_order_and_shared_event (lib : StdLib) (st : ConsumerState)
    (r : RelationDesc) (tx : Transaction) (tag : String) (t : Types) (row : RowData)
    (hrel : st.rel = some r) (htx : st.tx = some tx) (htag : Types.ofTag tag = some t) :
    ∃ e, get_event lib t r tx row = some e ∧
      append_event_if_registered lib st tag row =
        .ok { st with events_to_notify := st.events_to_notify ++
          ((st.domain_events.filter fun de =>
            specMatches de t r.nspace r.relation_name).map fun de => (de.callback, e)) } := by
  refine ⟨eventOf lib t r tx row, get_event_eq lib t r tx row, ?_⟩
  rw [append_ok lib st tag t row r tx hrel htx htag,
      rowPairs_eq_filter lib st.domain_events r tx tag t row htag]

/-- Witness for C6: on `c6State` the Insert row is buffered once for each
of the two matching subscriptions, in registration order, with the same
event. -/
theorem C6_matching_formula_order_and_shared_event_witness :
    ∃ e, get_event failLib .INSERT relX ⟨7, 1, 5⟩ ⟨1, [], [some "9"]⟩ = some e ∧
      append_event_if_registered failLib c6State "I" ⟨1, [], [some "9"]⟩ =
        .ok { c6State with events_to_notify := [(0, e), (1, e)] } :=
  C6_matching_formula_order_and_shared_event failLib c6State relX ⟨7, 1, 5⟩ "I"
    .INSERT ⟨1, [], [some "9"]⟩ rfl rfl rfl

/-- The (callback, event) pairs a list of row messages contributes to the
transaction opened by `Begin(xid, lsn, cts)`: one block per row message
in arrival order, and inside a block one pair per matching registration
in registration order. -/
def txPairs (lib : StdLib) (st0 : ConsumerState) (r : RelationDesc) (xid lsn : Nat)
    (cts : Int) (rows : List WalMessage) : List (Nat × Event) :=
  rows.flatMap (msgRowPairs lib st0.domain_events r (Transaction.mk xid lsn cts))

/-- C1: for a message sequence Begin → row messages (for the delivered
relation descriptor) → Commit, (a) processing Begin and the row messages
produces acknowledgments only — no callback invocation happens before the
Commit message; (b) processing the Commit message invokes exactly the
matching (callback, event) pairs — one invocation per matching row
message and registration, nothing else — in the arrival order of the
triggering row messages (and registration order within one row), between
the row acknowledgments and the final acknowledgment, i.e. only during
the Commit processing. -/
theorem C1_deferred_delivery_in_arrival_order (lib : StdLib) (st0 : ConsumerState)
    (r : RelationDesc) (lB xid lsn : Nat) (cts : Int) (rows : List WalMessage)
    (lC : Nat) (cts2 : Int)
    (hrel : st0.rel = some r)
    (hrows : ∀ m ∈ rows, ∃ tag rowd rt, m.payload = Msg.row tag rowd ∧
      Types.ofTag tag = some rt ∧ rowd.relation_id = r.relation_id) :
    runConsumer lib st0 (⟨lB, .B xid lsn cts⟩ :: rows) =
      .ok ({ st0 with events_to_notify := txPairs lib st0 r xid lsn cts rows, tx := some (Transaction.mk xid lsn cts) },
           .ack lB :: (rows.map fun m => .ack m.data_start)) ∧
    (OutEvent.ack lB :: (rows.map fun m => OutEvent.ack m.data_start)).filter
      OutEvent.isInvoke = [] ∧
    runConsumer lib st0 ((⟨lB, .B xid lsn cts⟩ :: rows) ++ [⟨lC, .C cts2⟩]) =
      .ok ({ st0 with events_to_notify := txPairs lib st0 r xid lsn cts rows, tx := some (Transaction.mk xid lsn cts) },
           (.ack lB :: (rows.map fun m => .ack m.data_start)) ++
             (((txPairs lib st0 r xid lsn cts rows).map fun ce => Invocation.mk ce.1
                 [.argTs cts2, .argEvent { ce.2 with tx_id := xid }]).map
               OutEvent.invoke) ++ [.ack lC]) := by
  have hrows' : ∀ m ∈ rows, ∃ tag rowd rt, m.payload = Msg.row tag rowd ∧
      Types.ofTag tag = some rt := by
    intro m hm
    obtain ⟨tag, rowd, rt, h1, h2, _⟩ := hrows m hm
    exact ⟨tag, rowd, rt, h1, h2⟩
  have hB : consume lib st0 ⟨lB, .B xid lsn cts⟩ =
      .ok ({ st0 with events_to_notify := ([] : List (Nat × Event)), tx := some (Transaction.mk xid lsn cts) },
           [.ack lB]) := rfl
  have hR := run_rows lib r (Transaction.mk xid lsn cts) rows
      { st0 with events_to_notify := ([] : List (Nat × Event)), tx := some (Transaction.mk xid lsn cts) }
      hrel rfl hrows'
  have conj1 : runConsumer lib st0 (⟨lB, .B xid lsn cts⟩ :: rows) =
      .ok ({ st0 with events_to_notify := txPairs lib st0 r xid lsn cts rows, tx := some (Transaction.mk xid lsn cts) },
           .ack lB :: (rows.map fun m => .ack m.data_start)) := by
    rw [runConsumer, hB]
    simp only [Except.bind]
    rw [hR]
    rfl
  refine ⟨conj1, ?_, ?_⟩
  · simp [List.filter_cons, OutEvent.isInvoke, filter_isInvoke_acks]
  · rw [runConsumer_append lib (⟨lB, .B xid lsn cts⟩ :: rows) [⟨lC, .C cts2⟩] st0,
        conj1]
    simp only [Except.bind]
    have hCc := consume_commit lib
      { st0 with events_to_notify := txPairs lib st0 r xid lsn cts rows, tx := some (Transaction.mk xid lsn cts) }
      lC cts2 (Transaction.mk xid lsn cts) rfl
    rw [runConsumer, hCc]
    simp only [Except.bind, runConsumer, Except.map]
    simp [List.append_assoc]

/-- Witness for C1: the concrete Begin/Insert/Commit exchange `c2Trace`
buffers the single matching pair during the row message (acknowledgments
only), and delivers it exactly once during the Commit processing. -/
theorem C1_deferred_delivery_in_arrival_order_witness :
    runConsumer failLib c2Start [⟨1, .B 7 1 5⟩, ⟨2, .row "I" ⟨1, [], [some "9"]⟩⟩] =
      .ok (c2Final, [.ack 1, .ack 2]) ∧
    ([OutEvent.ack 1, OutEvent.ack 2].filter OutEvent.isInvoke = []) ∧
    runConsumer failLib c2Start c2Trace =
      .ok (c2Final,
        [.ack 1, .ack 2, .invoke ⟨0, [.argTs 9, .argEvent c2Event]⟩, .ack 3]) :=
  C1_deferred_delivery_in_arrival_order failLib c2Start relX 1 7 1 5
    [⟨2, .row "I" ⟨1, [], [some "9"]⟩⟩] 3 9 rfl
    (by
      intro m hm
      rw [List.mem_singleton] at hm
      subst hm
      exact ⟨"I", ⟨1, [], [some "9"]⟩, .INSERT, rfl, rfl, rfl⟩)

end PG
